import Mathlib

/-!
Verification of the manifest validator (`validate_manifest.py`).

The validator takes an in-memory list of invoice records (JSON objects), and
produces diagnostics for missing required fields, duplicate invoice ids,
arithmetic mismatches and sequence gaps, plus currency/vendor frequency maps
and a pass/fail verdict.

Modelling choices:
* A JSON record is a structure of `Option`-valued fields: `none` models the
  key being absent from the object (the validator only ever reads these
  eleven keys).
* Monetary amounts are rationals; `round2` models rounding to two decimals.
* Python's `set` of seen invoice ids is modelled as a duplicate-free list
  built by insert-if-absent; only membership is ever queried.
* Python dicts used as frequency counters are modelled as insertion-ordered
  association lists: an existing key is incremented in place, a new key is
  appended.
* The bare subscript `record['invoice_id']` in the sequence check can raise
  `KeyError`, so the whole validator is embedded as `Except String _`.
* Diagnostic messages are formatted strings in Python; here each diagnostic
  is a structure carrying exactly the data interpolated into the string.
-/

/-- An invoice record: a JSON object whose eleven recognised keys may each be
present or absent.  `none` models an absent key. -/
structure InvoiceRecord where
  invoice_id : Option String
  vendor : Option String
  currency : Option String
  invoice_date : Option String
  due_date : Option String
  terms : Option String
  subtotal : Option ℚ
  tax : Option ℚ
  shipping : Option ℚ
  total : Option ℚ
  file_path : Option String
deriving DecidableEq, Repr

/-- Diagnostic for a required field absent from a record:
`f'Record {i}: missing field {field}'`. -/
structure MissingFieldDiag where
  recordIndex : Nat
  fieldName : String
deriving DecidableEq, Repr

/-- Diagnostic for an arithmetic mismatch:
`f'{inv_id}: Expected {calculated}, got {recorded} (subtotal:... tax:... shipping:...)'`. -/
structure MathErrorDiag where
  invId : String
  calculated : ℚ
  recorded : ℚ
  subtotal : ℚ
  tax : ℚ
  shipping : ℚ
deriving DecidableEq, Repr

/-- The eleven required field names, in the order the source lists them. -/
def requiredFields : List String :=
  ["invoice_id", "vendor", "currency", "invoice_date",
   "due_date", "terms", "subtotal", "tax", "shipping",
   "total", "file_path"]

/-- `field in record` for the eleven recognised keys. -/
def hasField (r : InvoiceRecord) (f : String) : Bool :=
  if f = "invoice_id" then r.invoice_id.isSome
  else if f = "vendor" then r.vendor.isSome
  else if f = "currency" then r.currency.isSome
  else if f = "invoice_date" then r.invoice_date.isSome
  else if f = "due_date" then r.due_date.isSome
  else if f = "terms" then r.terms.isSome
  else if f = "subtotal" then r.subtotal.isSome
  else if f = "tax" then r.tax.isSome
  else if f = "shipping" then r.shipping.isSome
  else if f = "total" then r.total.isSome
  else if f = "file_path" then r.file_path.isSome
  else false

/-- `abs(x)` on rationals, kept explicit so reports evaluate by reduction. -/
def ratAbs (q : ℚ) : ℚ := if q < 0 then -q else q

/-- `round(x, 2)`: round to two decimal places (half rounds away from
zero upward here; the claims under study never depend on tie behaviour). -/
def round2 (q : ℚ) : ℚ := (((q * 100 + 1 / 2).floor : ℤ) : ℚ) / 100

/-- Accumulator state of the per-record loop. -/
structure ValState where
  invoice_ids : List String
  missing_fields : List MissingFieldDiag
  duplicate_ids : List String
  math_errors : List MathErrorDiag
deriving DecidableEq, Repr

/-- One iteration of `for i, record in enumerate(data)`: the required-field
check, the duplicate-id check (insert-if-absent) and the arithmetic check. -/
def step (st : ValState) (i : Nat) (r : InvoiceRecord) : ValState :=
  let mf := st.missing_fields ++
    requiredFields.filterMap
      (fun f => if hasField r f then none else some ⟨i, f⟩)
  let invId := r.invoice_id.getD ""
  let seen := invId ∈ st.invoice_ids
  let dups := if seen then st.duplicate_ids ++ [invId] else st.duplicate_ids
  let ids := if seen then st.invoice_ids else st.invoice_ids ++ [invId]
  let subtotal := r.subtotal.getD 0
  let tax := r.tax.getD 0
  let shipping := r.shipping.getD 0
  let total := r.total.getD 0
  let calculated_total := round2 (subtotal + tax + shipping)
  let recorded_total := round2 total
  let me :=
    if ratAbs (calculated_total - recorded_total) > (1 : ℚ) / 100 then
      st.math_errors ++ [⟨invId, calculated_total, recorded_total, subtotal, tax, shipping⟩]
    else st.math_errors
  ⟨ids, mf, dups, me⟩

/-- The per-record loop, threading the running index. -/
def runLoop : Nat → ValState → List InvoiceRecord → ValState
  | _, st, [] => st
  | i, st, r :: rs => runLoop (i + 1) (step st i r) rs

/-- `str(i).zfill(w)` applied to a decimal numeral. -/
def zfill (w : Nat) (s : String) : String :=
  if s.length ≥ w then s
  else String.mk (List.replicate (w - s.length) '0') ++ s

/-- `[f'INV-2025-{str(i).zfill(4)}' for i in range(1, 121)]`. -/
def expectedIds : List String :=
  (List.range 120).map (fun i => "INV-2025-" ++ zfill 4 (Nat.repr (i + 1)))

/-- `[record['invoice_id'] for record in data]`: a bare subscript, which
raises `KeyError` when a record lacks `invoice_id`. -/
def actualIds (ds : List InvoiceRecord) : Except String (List String) :=
  ds.mapM (fun r =>
    match r.invoice_id with
    | some s => Except.ok s
    | none => Except.error "KeyError: invoice_id")

/-- One step of a Python dict frequency counter with an existing key:
increment the value stored at the first matching key, in place. -/
def incr : List (String × Nat) → String → List (String × Nat)
  | [], _ => []
  | (a, n) :: rest, k => if a = k then (a, n + 1) :: rest else (a, n) :: incr rest k

/-- `d[k] = d.get(k, 0) + 1` on an insertion-ordered dict. -/
def bump (m : List (String × Nat)) (k : String) : List (String × Nat) :=
  if (m.lookup k).isSome then incr m k else m ++ [(k, 1)]

/-- The validation report: the data assembled by `validate_manifest`
(diagnostic lists kept in full; the Python return value reports their
lengths). -/
structure ValidationReport where
  total_records : Nat
  missing_fields : List MissingFieldDiag
  duplicate_ids : List String
  math_errors : List MathErrorDiag
  sequence_gaps : List String
  currencies : List (String × Nat)
  vendors : List (String × Nat)
  passed : Bool
deriving DecidableEq, Repr

/-- The manifest validator over an already-loaded dataset.  Returns
`Except.error` exactly when the Python function raises. -/
def validate_manifest (ds : List InvoiceRecord) : Except String ValidationReport :=
  let st := runLoop 0 ⟨[], [], [], []⟩ ds
  match actualIds ds with
  | Except.error e => Except.error e
  | Except.ok ids =>
    let sequence_gaps := expectedIds.filter (fun e => ¬ e ∈ ids)
    let currencies := ds.foldl (fun m r => bump m (r.currency.getD "Unknown")) []
    let vendors := ds.foldl (fun m r => bump m (r.vendor.getD "Unknown")) []
    let has_errors :=
      ¬ (st.missing_fields = [] ∧ st.duplicate_ids = [] ∧
         st.math_errors = [] ∧ sequence_gaps = [])
    Except.ok
      { total_records := ds.length
        missing_fields := st.missing_fields
        duplicate_ids := st.duplicate_ids
        math_errors := st.math_errors
        sequence_gaps := sequence_gaps
        currencies := currencies
        vendors := vendors
        passed := decide ¬ has_errors }
/-- Kernel-computable strict lexicographic comparison on character lists. -/
def charListLtB : List Char → List Char → Bool
  | _, [] => false
  | [], _ :: _ => true
  | a :: as, b :: bs =>
    if a.val.toNat < b.val.toNat then true
    else if b.val.toNat < a.val.toNat then false
    else charListLtB as bs

lemma lex_of_charListLtB : ∀ as bs : List Char, charListLtB as bs = true → List.Lex (· < ·) as bs := by
  intro as
  induction as with
  | nil =>
    intro bs h
    cases bs with
    | nil => simp [charListLtB] at h
    | cons b bs => exact List.Lex.nil
  | cons a as ih =>
    intro bs h
    cases bs with
    | nil => simp [charListLtB] at h
    | cons b bs =>
      by_cases h1 : a.val.toNat < b.val.toNat
      · exact List.Lex.rel h1
      · by_cases h2 : b.val.toNat < a.val.toNat
        · simp [charListLtB, h1, h2] at h
        · have hab : a = b := by
            have hv : a.val.toNat = b.val.toNat := by omega
            exact Char.eq_of_val_eq (UInt32.eq_of_toBitVec_eq (BitVec.toNat_injective hv))
          subst hab
          simp [charListLtB, h1] at h
          exact List.Lex.cons (ih bs h)

/-- Kernel-computable strict comparison on strings, agreeing with `<`. -/
def strLtB (a b : String) : Bool := charListLtB a.data b.data

lemma lt_of_strLtB {a b : String} (h : strLtB a b = true) : a < b := by
  rw [String.lt_iff_toList_lt]
  exact lex_of_charListLtB a.data b.data h

/-- Kernel-computable adjacent-pair check. -/
def chainB (f : String → String → Bool) : List String → Bool
  | [] => true
  | [_] => true
  | a :: b :: rest => f a b && chainB f (b :: rest)

lemma chain'_of_chainB (f : String → String → Bool) :
    ∀ l : List String, chainB f l = true → l.Chain' (fun a b => f a b = true) := by
  intro l
  induction l with
  | nil => intro _; exact List.chain'_nil
  | cons a rest ih =>
    cases rest with
    | nil => intro _; simp
    | cons b t =>
      intro h
      simp [chainB] at h
      exact List.Chain'.cons h.1 (ih (by simp [chainB, h.2]))

set_option maxRecDepth 10000 in
lemma expectedIds_chainB : chainB strLtB expectedIds = true := by decide

lemma expectedIds_pairwise_lt : expectedIds.Pairwise (· < ·) := by
  have h := List.Chain'.imp (fun a b hab => lt_of_strLtB hab)
    (chain'_of_chainB strLtB expectedIds expectedIds_chainB)
  exact List.chain'_iff_pairwise.mp h

lemma expectedIds_nodup : expectedIds.Nodup :=
  List.Pairwise.imp (fun hab => ne_of_lt hab) expectedIds_pairwise_lt

lemma expectedIds_sorted : expectedIds.Sorted (· ≤ ·) :=
  List.Pairwise.imp (fun hab => le_of_lt hab) expectedIds_pairwise_lt

/-- The missing-field diagnostics one record contributes. -/
def missingOf (i : Nat) (r : InvoiceRecord) : List MissingFieldDiag :=
  requiredFields.filterMap (fun f => if hasField r f then none else some ⟨i, f⟩)

/-- The missing-field diagnostics of a dataset, indices starting at `k`. -/
def missingFrom : Nat → List InvoiceRecord → List MissingFieldDiag
  | _, [] => []
  | k, r :: rs => missingOf k r ++ missingFrom (k + 1) rs

/-- The defaulted invoice id: `record.get('invoice_id', '')`. -/
def defaultedId (r : InvoiceRecord) : String := r.invoice_id.getD ""

/-- The math-error diagnostic a single record contributes: none when the
recomputed total is within the 0.01 tolerance of the recorded one, and
exactly one entry carrying both totals and the three components otherwise. -/
def mathErrorOf (r : InvoiceRecord) : Option MathErrorDiag :=
  let subtotal := r.subtotal.getD 0
  let tax := r.tax.getD 0
  let shipping := r.shipping.getD 0
  let total := r.total.getD 0
  let calculated_total := round2 (subtotal + tax + shipping)
  let recorded_total := round2 total
  if ratAbs (calculated_total - recorded_total) ≤ (1 : ℚ) / 100 then none
  else some ⟨defaultedId r, calculated_total, recorded_total, subtotal, tax, shipping⟩

lemma step_missing_fields (st : ValState) (i : Nat) (r : InvoiceRecord) :
    (step st i r).missing_fields = st.missing_fields ++ missingOf i r := rfl

lemma step_math_errors (st : ValState) (i : Nat) (r : InvoiceRecord) :
    (step st i r).math_errors = st.math_errors ++ (mathErrorOf r).toList := by
  rw [step, mathErrorOf]
  by_cases h : ratAbs (round2 (r.subtotal.getD 0 + r.tax.getD 0 + r.shipping.getD 0) -
      round2 (r.total.getD 0)) ≤ (1 : ℚ) / 100
  · simp only [not_lt.mpr h, if_neg, if_pos h, gt_iff_lt, if_false]
    simp
  · simp only [gt_iff_lt, not_le.mp h, if_pos, if_neg h]
    simp [defaultedId]

lemma step_duplicate_ids (st : ValState) (i : Nat) (r : InvoiceRecord) :
    (step st i r).duplicate_ids =
      if defaultedId r ∈ st.invoice_ids
      then st.duplicate_ids ++ [defaultedId r] else st.duplicate_ids := rfl

lemma step_invoice_ids (st : ValState) (i : Nat) (r : InvoiceRecord) :
    (step st i r).invoice_ids =
      if defaultedId r ∈ st.invoice_ids
      then st.invoice_ids else st.invoice_ids ++ [defaultedId r] := rfl

lemma runLoop_missing_fields :
    ∀ (ds : List InvoiceRecord) (i : Nat) (st : ValState),
      (runLoop i st ds).missing_fields = st.missing_fields ++ missingFrom i ds := by
  intro ds
  induction ds with
  | nil => intro i st; simp [runLoop, missingFrom]
  | cons r rs ih =>
    intro i st
    rw [runLoop, ih, step_missing_fields, missingFrom, List.append_assoc]

lemma runLoop_math_errors :
    ∀ (ds : List InvoiceRecord) (i : Nat) (st : ValState),
      (runLoop i st ds).math_errors = st.math_errors ++ ds.filterMap mathErrorOf := by
  intro ds
  induction ds with
  | nil => intro i st; simp [runLoop]
  | cons r rs ih =>
    intro i st
    rw [runLoop, ih, step_math_errors, List.filterMap_cons, List.append_assoc]
    cases mathErrorOf r <;> simp

lemma runLoop_ids_length :
    ∀ (ds : List InvoiceRecord) (i : Nat) (st : ValState),
      (runLoop i st ds).invoice_ids.length + (runLoop i st ds).duplicate_ids.length =
        st.invoice_ids.length + st.duplicate_ids.length + ds.length := by
  intro ds
  induction ds with
  | nil => intro i st; simp [runLoop]
  | cons r rs ih =>
    intro i st
    rw [runLoop, ih]
    rw [step_duplicate_ids, step_invoice_ids]
    split_ifs <;> simp <;> omega

lemma runLoop_mem_invoice_ids :
    ∀ (ds : List InvoiceRecord) (i : Nat) (st : ValState) (x : String),
      x ∈ (runLoop i st ds).invoice_ids ↔
        x ∈ st.invoice_ids ∨ x ∈ ds.map defaultedId := by
  intro ds
  induction ds with
  | nil => intro i st x; simp [runLoop]
  | cons r rs ih =>
    intro i st x
    rw [runLoop, ih, step_invoice_ids]
    by_cases hm : defaultedId r ∈ st.invoice_ids
    · simp only [hm, if_true, List.map_cons, List.mem_cons]
      constructor
      · intro h
        rcases h with h | h
        · exact Or.inl h
        · exact Or.inr (Or.inr h)
      · intro h
        rcases h with h | h | h
        · exact Or.inl h
        · exact Or.inl (h ▸ hm)
        · exact Or.inr h
    · simp only [hm, if_false, List.map_cons, List.mem_cons, List.mem_append,
        List.mem_singleton]
      tauto

lemma runLoop_ids_nodup :
    ∀ (ds : List InvoiceRecord) (i : Nat) (st : ValState),
      st.invoice_ids.Nodup → (runLoop i st ds).invoice_ids.Nodup := by
  intro ds
  induction ds with
  | nil => intro i st h; simpa [runLoop] using h
  | cons r rs ih =>
    intro i st h
    rw [runLoop]
    apply ih
    rw [step_invoice_ids]
    split_ifs with hm
    · exact h
    · simp only [List.nodup_append, List.nodup_singleton, List.disjoint_singleton]
      exact ⟨h, trivial, fun hx => hm (by simpa using hx)⟩

/-- `m.get(k, 0)`: the count stored for `k`, zero when absent. -/
def lookupCount (m : List (String × Nat)) (k : String) : Nat :=
  (m.lookup k).getD 0

/-- The sum of all counts of a frequency map. -/
def sumCounts (m : List (String × Nat)) : Nat :=
  (m.map Prod.snd).sum

lemma lookup_incr_self :
    ∀ (m : List (String × Nat)) (k : String),
      (incr m k).lookup k = (m.lookup k).map (fun n => n + 1) := by
  intro m k
  induction m with
  | nil => rfl
  | cons p rest ih =>
    obtain ⟨a, n⟩ := p
    by_cases h : a = k
    · subst h; simp [incr, List.lookup]
    · have hka : (k == a) = false := beq_eq_false_iff_ne.mpr (Ne.symm h)
      simp only [incr, if_neg h, List.lookup, hka, ih]

lemma lookup_incr_other :
    ∀ (m : List (String × Nat)) (k k' : String), k' ≠ k →
      (incr m k).lookup k' = m.lookup k' := by
  intro m k k' hne
  induction m with
  | nil => rfl
  | cons p rest ih =>
    obtain ⟨a, n⟩ := p
    by_cases h : a = k
    · subst h
      simp only [incr, if_pos rfl, List.lookup, beq_eq_false_iff_ne.mpr hne]
    · by_cases h' : a = k'
      · subst h'; simp [incr, h, List.lookup]
      · have hka : (k' == a) = false := beq_eq_false_iff_ne.mpr (Ne.symm h')
        simp only [incr, if_neg h, List.lookup, hka, ih]

lemma lookupCount_bump_self (m : List (String × Nat)) (k : String) :
    lookupCount (bump m k) k = lookupCount m k + 1 := by
  rw [bump]
  by_cases h : (m.lookup k).isSome
  · rw [if_pos h, lookupCount, lookupCount, lookup_incr_self]
    obtain ⟨n, hn⟩ := Option.isSome_iff_exists.mp h
    rw [hn]; rfl
  · rw [if_neg h, lookupCount, lookupCount, List.lookup_append]
    rw [Option.not_isSome_iff_eq_none] at h
    rw [h]; simp [List.lookup]

lemma lookupCount_bump_other (m : List (String × Nat)) (k k' : String) (hne : k' ≠ k) :
    lookupCount (bump m k) k' = lookupCount m k' := by
  rw [bump]
  by_cases h : (m.lookup k).isSome
  · rw [if_pos h, lookupCount, lookupCount, lookup_incr_other _ _ _ hne]
  · rw [if_neg h, lookupCount, lookupCount, List.lookup_append]
    cases hm : m.lookup k' with
    | some n => rfl
    | none => simp [List.lookup, beq_eq_false_iff_ne.mpr hne]

lemma sumCounts_incr :
    ∀ (m : List (String × Nat)) (k : String), (m.lookup k).isSome →
      sumCounts (incr m k) = sumCounts m + 1 := by
  intro m k
  induction m with
  | nil => intro h; simp [List.lookup] at h
  | cons p rest ih =>
    obtain ⟨a, n⟩ := p
    intro h
    by_cases ha : a = k
    · subst ha; simp [incr, sumCounts]; omega
    · have hka : (k == a) = false := beq_eq_false_iff_ne.mpr (Ne.symm ha)
      simp only [List.lookup, hka] at h
      have := ih h
      simp only [incr, if_neg ha, sumCounts, List.map_cons, List.sum_cons] at this ⊢
      omega

lemma sumCounts_bump (m : List (String × Nat)) (k : String) :
    sumCounts (bump m k) = sumCounts m + 1 := by
  rw [bump]
  by_cases h : (m.lookup k).isSome
  · rw [if_pos h, sumCounts_incr _ _ h]
  · rw [if_neg h, sumCounts, sumCounts, List.map_append, List.sum_append]; rfl

lemma lookupCount_foldl_bump :
    ∀ (keys : List String) (m : List (String × Nat)) (k : String),
      lookupCount (keys.foldl bump m) k = lookupCount m k + keys.count k := by
  intro keys
  induction keys with
  | nil => intro m k; simp
  | cons a rest ih =>
    intro m k
    rw [List.foldl_cons, ih]
    by_cases h : a = k
    · subst h; rw [lookupCount_bump_self]; simp [List.count_cons]; omega
    · rw [lookupCount_bump_other _ _ _ (fun e => h e.symm)]
      simp [List.count_cons, h]

lemma sumCounts_foldl_bump :
    ∀ (keys : List String) (m : List (String × Nat)),
      sumCounts (keys.foldl bump m) = sumCounts m + keys.length := by
  intro keys
  induction keys with
  | nil => intro m; simp
  | cons a rest ih =>
    intro m
    rw [List.foldl_cons, ih, sumCounts_bump, List.length_cons]
    omega

/-- The report produced on a dataset whose id extraction succeeds, with every
field expressed by its per-record characterisation. -/
def reportOf (ds : List InvoiceRecord) (ids : List String) : ValidationReport :=
  { total_records := ds.length
    missing_fields := missingFrom 0 ds
    duplicate_ids := (runLoop 0 ⟨[], [], [], []⟩ ds).duplicate_ids
    math_errors := ds.filterMap mathErrorOf
    sequence_gaps := expectedIds.filter (fun e => ¬ e ∈ ids)
    currencies := (ds.map (fun r => r.currency.getD "Unknown")).foldl bump []
    vendors := (ds.map (fun r => r.vendor.getD "Unknown")).foldl bump []
    passed := decide (missingFrom 0 ds = [] ∧
      (runLoop 0 ⟨[], [], [], []⟩ ds).duplicate_ids = [] ∧
      ds.filterMap mathErrorOf = [] ∧
      expectedIds.filter (fun e => ¬ e ∈ ids) = []) }

lemma validate_manifest_eq (ds : List InvoiceRecord) (ids : List String)
    (h : actualIds ds = Except.ok ids) :
    validate_manifest ds = Except.ok (reportOf ds ids) := by
  unfold validate_manifest
  rw [h]
  rw [reportOf]
  simp only [Except.ok.injEq, ValidationReport.mk.injEq]
  refine ⟨trivial, ?_, trivial, ?_, trivial, ?_, ?_, ?_⟩
  · rw [runLoop_missing_fields]; simp
  · rw [runLoop_math_errors]; simp
  · rw [List.foldl_map]
  · rw [List.foldl_map]
  · apply decide_eq_decide.mpr
    rw [not_not, runLoop_missing_fields, runLoop_math_errors]
    simp

lemma validate_manifest_err (ds : List InvoiceRecord) (e : String)
    (h : actualIds ds = Except.error e) :
    validate_manifest ds = Except.error e := by
  unfold validate_manifest
  rw [h]

lemma validate_manifest_ok_shape (ds : List InvoiceRecord) (r : ValidationReport)
    (h : validate_manifest ds = Except.ok r) :
    ∃ ids, actualIds ds = Except.ok ids ∧ r = reportOf ds ids := by
  cases ha : actualIds ds with
  | error e =>
    rw [validate_manifest_err ds e ha] at h
    exact absurd h (by simp)
  | ok ids =>
    refine ⟨ids, rfl, ?_⟩
    have hv := validate_manifest_eq ds ids ha
    rw [hv] at h
    exact (Except.ok.inj h).symm

lemma requiredFields_nodup : requiredFields.Nodup := by decide

lemma missingOf_eq_nil_iff (i : Nat) (r : InvoiceRecord) :
    missingOf i r = [] ↔ ∀ f ∈ requiredFields, hasField r f = true := by
  rw [missingOf, List.filterMap_eq_nil_iff]
  constructor
  · intro h f hf
    have := h f hf
    by_cases hh : hasField r f
    · exact hh
    · rw [if_neg hh] at this; exact absurd this (by simp)
  · intro h f hf
    rw [if_pos (h f hf)]

lemma missingFrom_eq_nil_iff :
    ∀ (ds : List InvoiceRecord) (k : Nat),
      missingFrom k ds = [] ↔ ∀ rec ∈ ds, ∀ f ∈ requiredFields, hasField rec f = true := by
  intro ds
  induction ds with
  | nil => intro k; simp [missingFrom]
  | cons r rs ih =>
    intro k
    rw [missingFrom, List.append_eq_nil, missingOf_eq_nil_iff, ih]
    constructor
    · intro h rec hrec f hf
      rcases List.mem_cons.mp hrec with hrec | hrec
      · exact hrec ▸ h.1 f hf
      · exact h.2 rec hrec f hf
    · intro h
      exact ⟨fun f hf => h r (List.mem_cons_self r rs) f hf,
        fun rec hrec f hf => h rec (List.mem_cons_of_mem r hrec) f hf⟩

lemma mem_missingOf_recordIndex {d : MissingFieldDiag} {i : Nat} {r : InvoiceRecord}
    (h : d ∈ missingOf i r) : d.recordIndex = i := by
  rw [missingOf, List.mem_filterMap] at h
  obtain ⟨f, _, hf⟩ := h
  by_cases hh : hasField r f
  · rw [if_pos hh] at hf; exact absurd hf (by simp)
  · rw [if_neg hh] at hf
    cases Option.some.inj hf
    rfl

lemma count_missingOf_ne {i j : Nat} (hne : j ≠ i) (f : String) (r : InvoiceRecord) :
    (missingOf j r).count ⟨i, f⟩ = 0 := by
  rw [List.count_eq_zero]
  intro hm
  exact hne (mem_missingOf_recordIndex hm).symm

lemma count_filterMap_req (r : InvoiceRecord) (i : Nat) (f : String) :
    ∀ (l : List String), l.Nodup → f ∈ l →
      (l.filterMap (fun x => if hasField r x then none else
          some (MissingFieldDiag.mk i x))).count ⟨i, f⟩ =
        if hasField r f then 0 else 1 := by
  intro l
  induction l with
  | nil => intro _ hf; exact absurd hf (by simp)
  | cons a rest ih =>
    intro hnd hf
    have hnd' := (List.nodup_cons.mp hnd).2
    have hna := (List.nodup_cons.mp hnd).1
    rw [List.filterMap_cons]
    by_cases haf : a = f
    · subst haf
      have hzero : (rest.filterMap (fun x => if hasField r x then none else
          some (MissingFieldDiag.mk i x))).count ⟨i, a⟩ = 0 := by
        rw [List.count_eq_zero]
        intro hm
        rw [List.mem_filterMap] at hm
        obtain ⟨x, hx, hxe⟩ := hm
        by_cases hh : hasField r x
        · rw [if_pos hh] at hxe; exact absurd hxe (by simp)
        · rw [if_neg hh] at hxe
          cases Option.some.inj hxe
          exact hna hx
      by_cases hh : hasField r a
      · rw [if_pos hh, if_pos hh, hzero]
      · rw [if_neg hh, if_neg hh, List.count_cons_self, hzero]
    · have hf' : f ∈ rest := by
        rcases List.mem_cons.mp hf with h | h
        · exact absurd h.symm haf
        · exact h
      by_cases hh : hasField r a
      · rw [if_pos hh]
        exact ih hnd' hf'
      · have hnefa : (⟨i, f⟩ : MissingFieldDiag) ≠ ⟨i, a⟩ := by
          intro hc
          exact haf (congrArg MissingFieldDiag.fieldName hc).symm
        rw [if_neg hh, List.count_cons_of_ne hnefa, ih hnd' hf']

lemma count_missingOf_self (i : Nat) (r : InvoiceRecord) (f : String)
    (hf : f ∈ requiredFields) :
    (missingOf i r).count ⟨i, f⟩ = if hasField r f then 0 else 1 :=
  count_filterMap_req r i f requiredFields requiredFields_nodup hf

lemma mem_missingFrom_le :
    ∀ (ds : List InvoiceRecord) (k : Nat) (d : MissingFieldDiag),
      d ∈ missingFrom k ds → k ≤ d.recordIndex := by
  intro ds
  induction ds with
  | nil => intro k d h; exact absurd h (by simp [missingFrom])
  | cons r rs ih =>
    intro k d h
    rw [missingFrom, List.mem_append] at h
    rcases h with h | h
    · exact le_of_eq (mem_missingOf_recordIndex h).symm
    · exact le_trans (Nat.le_succ k) (ih (k + 1) d h)

lemma count_missingFrom :
    ∀ (ds : List InvoiceRecord) (k i : Nat) (f : String), f ∈ requiredFields →
      (missingFrom k ds).count ⟨k + i, f⟩ =
        if h : i < ds.length
        then (if hasField (ds.get ⟨i, h⟩) f then 0 else 1) else 0 := by
  intro ds
  induction ds with
  | nil =>
    intro k i f _
    rw [dif_neg (by simp)]
    rfl
  | cons r rs ih =>
    intro k i f hf
    rw [missingFrom, List.count_append]
    cases i with
    | zero =>
      simp only [Nat.add_zero]
      have h1 : (missingFrom (k + 1) rs).count ⟨k, f⟩ = 0 := by
        rw [List.count_eq_zero]
        intro hm
        have := mem_missingFrom_le rs (k + 1) _ hm
        simp at this
      rw [h1, count_missingOf_self k r f hf, dif_pos (by simp)]
      simp
    | succ j =>
      have h1 : (missingOf k r).count ⟨k + (j + 1), f⟩ = 0 :=
        count_missingOf_ne (by omega) f r
      have h2 : k + (j + 1) = (k + 1) + j := by omega
      rw [h1, h2, ih (k + 1) j f hf]
      by_cases hj : j < rs.length
      · rw [dif_pos hj, dif_pos (by simpa using Nat.succ_lt_succ hj)]
        simp
      · rw [dif_neg hj, dif_neg (by simpa using fun hc => hj (Nat.lt_of_succ_lt_succ hc))]

lemma filterMap_invoice_id_eq_map :
    ∀ (ds : List InvoiceRecord), (∀ rec ∈ ds, rec.invoice_id.isSome) →
      ds.filterMap (fun rec => rec.invoice_id) = ds.map defaultedId := by
  intro ds
  induction ds with
  | nil => intro _; rfl
  | cons r rs ih =>
    intro h
    obtain ⟨s, hs⟩ := Option.isSome_iff_exists.mp (h r (List.mem_cons_self r rs))
    rw [List.filterMap_cons, List.map_cons, hs]
    rw [ih (fun rec hrec => h rec (List.mem_cons_of_mem r hrec))]
    rw [defaultedId, hs]
    rfl

lemma runLoop_ids_length_eq_dedup (ds : List InvoiceRecord) :
    (runLoop 0 ⟨[], [], [], []⟩ ds).invoice_ids.length =
      (ds.map defaultedId).dedup.length := by
  have hnd : (runLoop 0 ⟨[], [], [], []⟩ ds).invoice_ids.Nodup :=
    runLoop_ids_nodup ds 0 _ (by simp)
  have hmem : ∀ x, x ∈ (runLoop 0 ⟨[], [], [], []⟩ ds).invoice_ids ↔
      x ∈ (ds.map defaultedId).dedup := by
    intro x
    rw [runLoop_mem_invoice_ids, List.mem_dedup]
    simp
  have hperm := (List.perm_ext_iff_of_nodup hnd (List.nodup_dedup _)).mpr hmem
  exact hperm.length_eq

/-- Modelled directly from the spec sentence: the set difference between the
expected-ID set and the actual-ID set, converted to a sorted list. -/
def sequenceGapsSpec (ids : List String) : List String :=
  Finset.sort (· ≤ ·) (expectedIds.toFinset \ ids.toFinset)

lemma filter_not_mem_eq_sequenceGapsSpec (ids : List String) :
    expectedIds.filter (fun e => ¬ e ∈ ids) = sequenceGapsSpec ids := by
  apply List.eq_of_perm_of_sorted (r := (· ≤ ·))
  · apply (List.perm_ext_iff_of_nodup (expectedIds_nodup.filter _)
      (Finset.sort_nodup _ _)).mpr
    intro a
    rw [List.mem_filter, Finset.mem_sort, Finset.mem_sdiff,
      List.mem_toFinset, List.mem_toFinset]
    simp
  · exact List.Pairwise.filter _ expectedIds_sorted
  · exact Finset.sort_sorted _ _

lemma hasField_vendor (r : InvoiceRecord) : hasField r "vendor" = r.vendor.isSome := by
  rfl

/-- A record with every recognised key absent: the JSON object `{}`. -/
def emptyRecord : InvoiceRecord :=
  ⟨none, none, none, none, none, none, none, none, none, none, none⟩

/-- A record with all eleven fields present and exact arithmetic. -/
def fullRecord (idv : String) : InvoiceRecord :=
  { invoice_id := some idv
    vendor := some "Acme"
    currency := some "USD"
    invoice_date := some "2025-01-01"
    due_date := some "2025-01-31"
    terms := some "Net 30"
    subtotal := some 100
    tax := some 20
    shipping := some 5
    total := some 125
    file_path := some "invoices/a.pdf" }

/-- A complete record whose recorded total disagrees with the components. -/
def badMathRecord : InvoiceRecord :=
  { fullRecord "INV-2025-0001" with total := some 130 }

/-- A complete record except for the `vendor` field. -/
def noVendorRecord : InvoiceRecord :=
  { fullRecord "INV-2025-0007" with vendor := none }

/-- C1: for every input dataset, the report field `passed` is true if and
only if all four diagnostic lists (missing_fields, duplicate_ids,
math_errors, sequence_gaps) produced by the validation are empty. -/
theorem passed_iff_all_diag_empty (ds : List InvoiceRecord) (r : ValidationReport)
    (h : validate_manifest ds = Except.ok r) :
    r.passed = true ↔
      (r.missing_fields = [] ∧ r.duplicate_ids = [] ∧
       r.math_errors = [] ∧ r.sequence_gaps = []) := by
  obtain ⟨ids, hids, rfl⟩ := validate_manifest_ok_shape ds r h
  simp [reportOf]

theorem passed_iff_all_diag_empty_concrete :
    (reportOf [] []).passed = true ↔
      ((reportOf [] []).missing_fields = [] ∧ (reportOf [] []).duplicate_ids = [] ∧
       (reportOf [] []).math_errors = [] ∧ (reportOf [] []).sequence_gaps = []) :=
  passed_iff_all_diag_empty [] (reportOf [] []) (validate_manifest_eq [] [] rfl)

/-- C2: contrary to the claim, a dataset containing a record without
`invoice_id` makes the validator raise `KeyError` at the
`record['invoice_id']` comprehension instead of completing with a report. -/
theorem keyerror_on_missing_invoice_id :
    validate_manifest [emptyRecord] = Except.error "KeyError: invoice_id" := by
  rfl

/-- C3: each record contributes no math-error entry when the recomputed total
is within 0.01 of the recorded one (both rounded to 2 decimals, absent
numeric fields defaulting to 0), and otherwise exactly one entry carrying the
calculated total, the recorded total and the three components. -/
theorem math_errors_per_record (ds : List InvoiceRecord) (r : ValidationReport)
    (h : validate_manifest ds = Except.ok r) :
    r.math_errors = ds.filterMap (fun rec =>
      if ratAbs (round2 (rec.subtotal.getD 0 + rec.tax.getD 0 + rec.shipping.getD 0) -
          round2 (rec.total.getD 0)) ≤ (1 : ℚ) / 100 then none
      else some ⟨rec.invoice_id.getD "",
        round2 (rec.subtotal.getD 0 + rec.tax.getD 0 + rec.shipping.getD 0),
        round2 (rec.total.getD 0),
        rec.subtotal.getD 0, rec.tax.getD 0, rec.shipping.getD 0⟩) := by
  obtain ⟨ids, hids, rfl⟩ := validate_manifest_ok_shape ds r h
  rfl

theorem math_errors_per_record_concrete :
    validate_manifest [badMathRecord] =
        Except.ok (reportOf [badMathRecord] ["INV-2025-0001"]) ∧
    (reportOf [badMathRecord] ["INV-2025-0001"]).math_errors =
        [badMathRecord].filterMap (fun rec =>
          if ratAbs (round2 (rec.subtotal.getD 0 + rec.tax.getD 0 + rec.shipping.getD 0) -
              round2 (rec.total.getD 0)) ≤ (1 : ℚ) / 100 then none
          else some ⟨rec.invoice_id.getD "",
            round2 (rec.subtotal.getD 0 + rec.tax.getD 0 + rec.shipping.getD 0),
            round2 (rec.total.getD 0),
            rec.subtotal.getD 0, rec.tax.getD 0, rec.shipping.getD 0⟩) ∧
    (reportOf [badMathRecord] ["INV-2025-0001"]).math_errors =
      [⟨"INV-2025-0001", 125, 130, 100, 20, 5⟩] :=
  ⟨validate_manifest_eq [badMathRecord] ["INV-2025-0001"] rfl,
   math_errors_per_record [badMathRecord] _
     (validate_manifest_eq [badMathRecord] ["INV-2025-0001"] rfl),
   by with_unfolding_all rfl⟩

/-- C4: the sequence-gap list is exactly the sorted set difference between
the canonical expected-ID set INV-2025-0001..INV-2025-0120 and the set of
the records' actual invoice ids. -/
theorem sequence_gaps_eq_sorted_set_difference (ds : List InvoiceRecord)
    (r : ValidationReport) (ids : List String)
    (h : validate_manifest ds = Except.ok r)
    (hids : actualIds ds = Except.ok ids) :
    r.sequence_gaps = sequenceGapsSpec ids := by
  obtain ⟨ids', hids', rfl⟩ := validate_manifest_ok_shape ds r h
  rw [hids'] at hids
  rw [← Except.ok.inj hids]
  exact filter_not_mem_eq_sequenceGapsSpec ids'

theorem sequence_gaps_eq_sorted_set_difference_concrete :
    (reportOf [] []).sequence_gaps = sequenceGapsSpec [] :=
  sequence_gaps_eq_sorted_set_difference [] (reportOf [] []) []
    (validate_manifest_eq [] [] rfl) rfl

/-- C5: when every record carries an `invoice_id`, the number of duplicate
diagnostics equals the number of records minus the number of distinct
invoice-id values. -/
theorem duplicate_ids_count (ds : List InvoiceRecord) (r : ValidationReport)
    (h : validate_manifest ds = Except.ok r)
    (hall : ∀ rec ∈ ds, rec.invoice_id.isSome) :
    r.duplicate_ids.length =
      ds.length - (ds.filterMap (fun rec => rec.invoice_id)).dedup.length := by
  obtain ⟨ids, hids, rfl⟩ := validate_manifest_ok_shape ds r h
  have hlen := runLoop_ids_length ds 0 ⟨[], [], [], []⟩
  have hdedup := runLoop_ids_length_eq_dedup ds
  rw [filterMap_invoice_id_eq_map ds hall]
  simp only [reportOf]
  simp only [List.length_nil] at hlen
  omega

theorem duplicate_ids_count_concrete :
    (reportOf [fullRecord "INV-2025-0007", fullRecord "INV-2025-0007"]
        ["INV-2025-0007", "INV-2025-0007"]).duplicate_ids.length =
      [fullRecord "INV-2025-0007", fullRecord "INV-2025-0007"].length -
        ([fullRecord "INV-2025-0007", fullRecord "INV-2025-0007"].filterMap
          (fun rec => rec.invoice_id)).dedup.length :=
  duplicate_ids_count [fullRecord "INV-2025-0007", fullRecord "INV-2025-0007"] _
    (validate_manifest_eq _ ["INV-2025-0007", "INV-2025-0007"] rfl)
    (by decide)

/-- C6: the missing-field list is empty iff every record carries all eleven
required fields, and each absent field of each record contributes exactly one
diagnostic tagged with that record's index and the field name. -/
theorem missing_fields_characterisation (ds : List InvoiceRecord)
    (r : ValidationReport) (h : validate_manifest ds = Except.ok r) :
    (r.missing_fields = [] ↔
      ∀ rec ∈ ds, ∀ f ∈ requiredFields, hasField rec f = true) ∧
    (∀ (i : Nat) (hi : i < ds.length) (f : String), f ∈ requiredFields →
      hasField (ds.get ⟨i, hi⟩) f = false →
      r.missing_fields.count ⟨i, f⟩ = 1) := by
  obtain ⟨ids, hids, rfl⟩ := validate_manifest_ok_shape ds r h
  constructor
  · exact missingFrom_eq_nil_iff ds 0
  · intro i hi f hf habs
    have hc := count_missingFrom ds 0 i f hf
    rw [dif_pos hi] at hc
    simp only [Nat.zero_add] at hc
    show (missingFrom 0 ds).count ⟨i, f⟩ = 1
    rw [hc, if_neg (by rw [habs]; exact Bool.false_ne_true)]

theorem missing_fields_characterisation_concrete :
    (((reportOf [noVendorRecord] ["INV-2025-0007"]).missing_fields = [] ↔
      ∀ rec ∈ [noVendorRecord], ∀ f ∈ requiredFields, hasField rec f = true) ∧
    (∀ (i : Nat) (hi : i < [noVendorRecord].length) (f : String),
      f ∈ requiredFields →
      hasField ([noVendorRecord].get ⟨i, hi⟩) f = false →
      (reportOf [noVendorRecord] ["INV-2025-0007"]).missing_fields.count ⟨i, f⟩ = 1)) ∧
    (0 : Nat) < [noVendorRecord].length ∧
    "vendor" ∈ requiredFields ∧
    hasField noVendorRecord "vendor" = false :=
  ⟨missing_fields_characterisation [noVendorRecord] _
      (validate_manifest_eq [noVendorRecord] ["INV-2025-0007"] rfl),
   by decide, by decide, by decide⟩

/-- C7: a record omitting `vendor` yields exactly one missing-field
diagnostic for that record and field, and still contributes one count to the
`Unknown` bucket of the vendor statistics (absence never skips a record:
every later check sees the typed default). -/
theorem missing_vendor_defaults (ds : List InvoiceRecord) (r : ValidationReport)
    (i : Nat) (h : validate_manifest ds = Except.ok r) (hi : i < ds.length)
    (hv : (ds.get ⟨i, hi⟩).vendor = none) :
    r.missing_fields.count ⟨i, "vendor"⟩ = 1 ∧
    lookupCount r.vendors "Unknown" =
      (ds.map (fun rec => rec.vendor.getD "Unknown")).count "Unknown" ∧
    1 ≤ (ds.map (fun rec => rec.vendor.getD "Unknown")).count "Unknown" := by
  obtain ⟨ids, hids, rfl⟩ := validate_manifest_ok_shape ds r h
  refine ⟨?_, ?_, ?_⟩
  · have hfv : hasField (ds.get ⟨i, hi⟩) "vendor" = false := by
      rw [hasField_vendor, hv]
      rfl
    have hc := count_missingFrom ds 0 i "vendor" (by decide)
    rw [dif_pos hi] at hc
    simp only [Nat.zero_add] at hc
    show (missingFrom 0 ds).count ⟨i, "vendor"⟩ = 1
    rw [hc, if_neg (by rw [hfv]; exact Bool.false_ne_true)]
  · show lookupCount ((ds.map (fun rec => rec.vendor.getD "Unknown")).foldl bump []) _ = _
    rw [lookupCount_foldl_bump]
    simp [lookupCount]
  · have hmem : "Unknown" ∈ ds.map (fun rec => rec.vendor.getD "Unknown") := by
      refine List.mem_map.mpr ⟨ds.get ⟨i, hi⟩, List.get_mem ds i hi, ?_⟩
      rw [hv]
      rfl
    exact List.count_pos_iff.mpr hmem

theorem missing_vendor_defaults_concrete :
    (reportOf [noVendorRecord] ["INV-2025-0007"]).missing_fields.count
        ⟨0, "vendor"⟩ = 1 ∧
    lookupCount (reportOf [noVendorRecord] ["INV-2025-0007"]).vendors "Unknown" =
      ([noVendorRecord].map (fun rec => rec.vendor.getD "Unknown")).count "Unknown" ∧
    1 ≤ ([noVendorRecord].map (fun rec => rec.vendor.getD "Unknown")).count "Unknown" :=
  missing_vendor_defaults [noVendorRecord] _ 0
    (validate_manifest_eq [noVendorRecord] ["INV-2025-0007"] rfl)
    (by decide) rfl

/-- C8: an empty dataset validated against the default expected range yields
a report with zero records, all 120 expected ids as sequence gaps, and a
failing verdict. -/
theorem empty_dataset_report :
    validate_manifest [] = Except.ok (reportOf [] []) ∧
    (reportOf [] []).total_records = 0 ∧
    (reportOf [] []).sequence_gaps = expectedIds ∧
    expectedIds.length = 120 ∧
    (reportOf [] []).passed = false := by
  refine ⟨validate_manifest_eq [] [] rfl, rfl, ?_, by decide, by decide⟩
  simp only [reportOf]
  apply List.filter_eq_self.mpr
  intro a _
  simp

/-- C9: validation is deterministic — two runs on the same dataset yield the
same report. -/
theorem validate_deterministic (ds : List InvoiceRecord)
    (r1 r2 : ValidationReport) (h1 : validate_manifest ds = Except.ok r1)
    (h2 : validate_manifest ds = Except.ok r2) : r1 = r2 := by
  rw [h1] at h2
  exact Except.ok.inj h2

theorem validate_deterministic_concrete : reportOf [] [] = reportOf [] [] :=
  validate_deterministic [] (reportOf [] []) (reportOf [] [])
    (validate_manifest_eq [] [] rfl) (validate_manifest_eq [] [] rfl)

/-- C10: each record contributes exactly one count to each frequency map, so
the counts in `currencies` sum to `total_records`, and likewise for
`vendors`. -/
theorem freq_map_counts_sum (ds : List InvoiceRecord) (r : ValidationReport)
    (h : validate_manifest ds = Except.ok r) :
    sumCounts r.currencies = r.total_records ∧
    sumCounts r.vendors = r.total_records := by
  obtain ⟨ids, hids, rfl⟩ := validate_manifest_ok_shape ds r h
  constructor
  · show sumCounts ((ds.map (fun rec => rec.currency.getD "Unknown")).foldl bump []) = _
    rw [sumCounts_foldl_bump]
    simp [sumCounts, reportOf]
  · show sumCounts ((ds.map (fun rec => rec.vendor.getD "Unknown")).foldl bump []) = _
    rw [sumCounts_foldl_bump]
    simp [sumCounts, reportOf]

theorem freq_map_counts_sum_concrete :
    sumCounts (reportOf [fullRecord "INV-2025-0001"] ["INV-2025-0001"]).currencies =
        (reportOf [fullRecord "INV-2025-0001"] ["INV-2025-0001"]).total_records ∧
    sumCounts (reportOf [fullRecord "INV-2025-0001"] ["INV-2025-0001"]).vendors =
        (reportOf [fullRecord "INV-2025-0001"] ["INV-2025-0001"]).total_records :=
  freq_map_counts_sum [fullRecord "INV-2025-0001"] _
    (validate_manifest_eq [fullRecord "INV-2025-0001"] ["INV-2025-0001"] rfl)
